import Mathlib

/-!
# Autoscale: verification of the weight-extraction pipeline

Shallow embedding of the Autoscale repository:

* the server-side worker's signal-processing code
  (`detectStablePlateauV6`, `fallbackTailMedian`, `consensusRefineV2` and their
  math helpers, from the Deno worker function),
* the ingest edge function (`supabase/functions/ingest-weight/index.ts`),
* the worker's job-queue handling, and
* the embedded firmware's event-capture state machine and
  `readStableRaw` sampler (`src/main.cpp`).

Modelling conventions:

* JavaScript / C++ floating-point numbers are modelled as exact rationals (`ℚ`).
* `Math.sqrt` / `sqrt` has no exact rational counterpart, so every definition
  that calls it is parametrised by an abstract square-root routine
  `sq : ℚ → ℚ`; all theorems hold for every choice of `sq`.
* JavaScript's stable `Array.prototype.sort` is modelled by `List.insertionSort`
  (a stable sort).
* A thrown exception is modelled by an `Option`/branch result (`none` = throw).
* Out-of-range array reads that are unreachable in the guarded source paths are
  modelled with `getD` defaults.
-/

namespace Autoscale

/-- `Math.round`: rounds half-way cases toward `+∞`. -/
def jround (x : ℚ) : ℤ := ⌊x + 1/2⌋

/-- C `lround`: rounds half-way cases away from zero. -/
def lroundQ (x : ℚ) : ℤ := if 0 ≤ x then ⌊x + 1/2⌋ else ⌈x - 1/2⌉

/-- `Math.trunc`. -/
def jtrunc (x : ℚ) : ℤ := if 0 ≤ x then ⌊x⌋ else ⌈x⌉

/-- JS `a || b` on numbers, used as a zero-denominator guard: `d || 1e-6`. -/
def jsOrEps (d : ℚ) : ℚ := if d = 0 then 1/1000000 else d

/-- Worker sample `{t, kg}` (`t` in milliseconds). -/
structure Sample where
  t : ℚ
  kg : ℚ
deriving DecidableEq, Repr

/-- `median(arr)`: sort ascending, middle element (or mean of the two middle
ones).  The JS source returns `NaN` on the empty list; that case is unreachable
in every guarded use, and is modelled as `0`. -/
def medianQ (l : List ℚ) : ℚ :=
  let a := List.insertionSort (· ≤ ·) l
  let n := a.length
  if n = 0 then 0
  else if n % 2 = 1 then a.getD (n / 2) 0
  else (a.getD (n / 2 - 1) 0 + a.getD (n / 2) 0) / 2

/-- `mad(arr, m)`: median absolute deviation about `m`. -/
def madQ (l : List ℚ) (m : ℚ) : ℚ := medianQ (l.map fun v => |v - m|)

/-- `mean(a)` (JS `NaN` on `[]`, unreachable in guarded uses, modelled as 0). -/
def meanL (a : List ℚ) : ℚ := a.sum / a.length

/-- `std(a)`: population standard deviation, `0` when fewer than 2 points.
`sq` models `Math.sqrt`. -/
def stdL (sq : ℚ → ℚ) (a : List ℚ) : ℚ :=
  if a.length < 2 then 0
  else sq (meanL (a.map fun x => (x - meanL a) ^ 2))

/-- `hampel(x, k, t0)`: rolling MAD-based outlier replacement.
`1.4826 = 14826/10000`. -/
def hampel (x : List ℚ) (k : Nat) (t0 : ℚ) : List ℚ :=
  (List.range x.length).map fun i =>
    let lo := i - k
    let hi := min x.length (i + k + 1)
    let w := (x.drop lo).take (hi - lo)
    let med := medianQ w
    let M := madQ w med
    if 0 < M ∧ t0 < |x.getD i 0 - med| / ((14826/10000) * M) then med
    else x.getD i 0

/-- `movingAvg(x, win)`: centred moving average.  The JS source fills an output
array imperatively (`out[idx] = i>=win-1 ? s/win : (out[idx-1] ?? x[idx])`) and
afterwards replaces still-`undefined` slots by `x[i]`; the fold below carries
the running sum `s` and the partially-filled array (`Option` = `undefined`). -/
def movingAvg (x : List ℚ) (win : Nat) : List ℚ :=
  if win ≤ 1 then x
  else
    let n := x.length
    let step : (ℚ × List (Option ℚ)) → Nat → (ℚ × List (Option ℚ)) := fun acc i =>
      let s := acc.1 + x.getD i 0
      let s := if win ≤ i then s - x.getD (i - win) 0 else s
      let out := acc.2
      if win / 2 ≤ i then
        let j := i - win / 2
        let v :=
          if win - 1 ≤ i then s / win
          else ((if j = 0 then none else out.getD (j - 1) none).getD (x.getD j 0))
        (s, out.set j (some v))
      else (s, out)
    let out := ((List.range n).foldl step (0, List.replicate n none)).2
    (List.range n).map fun i => (out.getD i none).getD (x.getD i 0)

/-- `rollingStd(x, win)`: centred rolling standard deviation (`sq` models
`Math.sqrt`).  After the main pass the JS source patches zero (falsy) entries
with their right neighbour (`out[min(n-1,i+1)]`), sequentially, ascending. -/
def rollingStd (sq : ℚ → ℚ) (x : List ℚ) (win : Nat) : List ℚ :=
  let n := x.length
  if win ≤ 1 then List.replicate n 0
  else
    let half := win / 2
    let step : (ℚ × ℚ × List ℚ) → Nat → (ℚ × ℚ × List ℚ) := fun acc i =>
      let s := acc.1 + x.getD i 0
      let s2 := acc.2.1 + x.getD i 0 * x.getD i 0
      let s := if win ≤ i then s - x.getD (i - win) 0 else s
      let s2 := if win ≤ i then s2 - x.getD (i - win) 0 * x.getD (i - win) 0 else s2
      let out := acc.2.2
      if half ≤ i ∧ i - half < n ∧ win - 1 ≤ i then
        let mean := s / win
        let v := max 0 (s2 / win - mean * mean)
        (s, s2, out.set (i - half) (sq v))
      else (s, s2, out)
    let out := ((List.range n).foldl step (0, 0, List.replicate n 0)).2.2
    (List.range n).foldl
      (fun out i => if out.getD i 0 = 0 then out.set i (out.getD (min (n - 1) (i + 1)) 0) else out)
      out

/-- `gradient(y, x)`: central differences with one-sided ends; a zero time step
falls back to `1e-6` (`d || 1e-6` in JS).  Unreachable for fewer than two
points in the guarded source path (where JS would produce `NaN`s); modelled as
zeros there. -/
def gradient (y x : List ℚ) : List ℚ :=
  let n := y.length
  if n < 2 then List.replicate n 0
  else
    (List.range n).map fun i =>
      if i = 0 then (y.getD 1 0 - y.getD 0 0) / jsOrEps (x.getD 1 0 - x.getD 0 0)
      else if i = n - 1 then
        (y.getD (n-1) 0 - y.getD (n-2) 0) / jsOrEps (x.getD (n-1) 0 - x.getD (n-2) 0)
      else (y.getD (i+1) 0 - y.getD (i-1) 0) / jsOrEps (x.getD (i+1) 0 - x.getD (i-1) 0)

/-- `percentile(a, p)`: linear interpolation between order statistics. -/
def percentile (a : List ℚ) (p : ℚ) : ℚ :=
  let s := List.insertionSort (· ≤ ·) a
  let idx := (p / 100) * ((s.length : ℚ) - 1)
  let lo := ⌊idx⌋
  let hi := ⌈idx⌉
  if lo = hi then s.getD lo.toNat 0
  else s.getD lo.toNat 0 * (1 - (idx - lo)) + s.getD hi.toNat 0 * (idx - lo)

/-- `diffs(a)`: adjacent differences. -/
def diffs : List ℚ → List ℚ
  | [] => []
  | [_] => []
  | a :: b :: rest => (b - a) :: diffs (b :: rest)

/-- `clamp(x, lo, hi)` = `Math.max(lo, Math.min(hi, x))`. -/
def clampQ (x lo hi : ℚ) : ℚ := max lo (min hi x)

/-- Detector output (`Plateau` in the worker source). -/
structure Plateau where
  weight : ℚ
  uncertainty : ℚ
  quality : ℚ
  mode : String
  start_s : ℚ
  end_s : ℚ
  duration_s : ℚ
  mean_slope : ℚ
  mean_std : ℚ
  n_points : Nat
deriving DecidableEq, Repr

/-- `contiguous(mask)`, written as a structural recursion over the mask with the
current index and the optionally-open run start (the JS source uses a `while`
loop over indices). -/
def contiguousAux : List Bool → Nat → Option Nat → List (Nat × Nat)
  | [], _, none => []
  | [], n, some a => [(a, n)]
  | b :: rest, i, none =>
    if b then contiguousAux rest (i + 1) (some i) else contiguousAux rest (i + 1) none
  | b :: rest, i, some a =>
    if b then contiguousAux rest (i + 1) (some a)
    else (a, i) :: contiguousAux rest (i + 1) none

/-- Maximal runs `[a, b)` of `true` entries. -/
def contiguous (mask : List Bool) : List (Nat × Nat) := contiguousAux mask 0 none

/-- `fallbackTailMedian(t, kg)`: median of the tail window
`[max(t0, t_last − max(12, 0.25·dur)), t_last]`. -/
def fallbackTailMedian (sq : ℚ → ℚ) (t kg : List ℚ) : Plateau :=
  let dur := t.getLastD 0 - t.headD 0
  let tailStart := max (t.headD 0) (t.getLastD 0 - max 12 ((25/100) * dur))
  let tailIdx := (t.enum.filter fun p => tailStart ≤ p.2).map (·.1)
  let tail := tailIdx.map fun i => kg.getD i 0
  { weight := medianQ tail
    uncertainty := stdL sq tail / sq (tail.length : ℚ)
    quality := 65/100
    mode := "fallback-tail-median"
    start_s := tailStart
    end_s := t.getLastD 0
    duration_s := t.getLastD 0 - tailStart
    mean_slope := 0
    mean_std := stdL sq tail
    n_points := tail.length }

/-! ### `detectStablePlateauV6`, split into its named stages

The stages below are the successive `const` bindings of the source function, in
order; `detectStablePlateauV6` assembles them.  `sq` models `Math.sqrt`. -/

/-- `[...samples].sort((a,b)=>a.t-b.t)` (stable). -/
def dSorted (s : List Sample) : List Sample :=
  List.insertionSort (fun a b => a.t ≤ b.t) s

/-- `t`: timestamps normalised to seconds relative to the first sample. -/
def dT (s : List Sample) : List ℚ :=
  (dSorted s).map fun x => (x.t - ((dSorted s).headD ⟨0, 0⟩).t) / 1000

/-- `kg0`: kg values in time order. -/
def dKg0 (s : List Sample) : List ℚ := (dSorted s).map (·.kg)

/-- `lowCut = max(0.5*medPos, percentile(kg0, 5))` where `medPos` is the median
of the strictly positive kg values (all values if none is positive). -/
def dLowCut (s : List Sample) : ℚ :=
  let kg0 := dKg0 s
  let pos := kg0.filter (0 < ·)
  let medPos := if pos.length ≠ 0 then medianQ pos else medianQ kg0
  max ((5/10) * medPos) (percentile kg0 5)

/-- `keepIdx`: indices surviving the positive-floor filter. -/
def dKeepIdx (s : List Sample) : List Nat :=
  ((dKg0 s).enum.filter fun p => dLowCut s ≤ p.2).map (·.1)

/-- `tK`: kept timestamps. -/
def dtK (s : List Sample) : List ℚ := (dKeepIdx s).map fun i => (dT s).getD i 0

/-- `kK`: kept kg values. -/
def dkK (s : List Sample) : List ℚ := (dKeepIdx s).map fun i => (dKg0 s).getD i 0

/-- `hz = dt.length ? 1/median(dt) : 10` over the positive inter-sample
differences of `tK`. -/
def dHz (s : List Sample) : ℚ :=
  let dt := (diffs (dtK s)).filter (0 < ·)
  if dt.length ≠ 0 then 1 / medianQ dt else 10

/-- `kg = hampel(kK, 15, 4.0)`. -/
def dKgHam (s : List Sample) : List ℚ := hampel (dkK s) 15 4

/-- Smoothing window `max(3, round(0.6*hz))`. -/
def dSmoothWin (s : List Sample) : Nat := max 3 (jround ((6/10) * dHz s)).toNat

/-- `kgS = movingAvg(kg, max(3, round(0.6*hz)))`. -/
def dKgS (s : List Sample) : List ℚ := movingAvg (dKgHam s) (dSmoothWin s)

/-- `deriv = gradient(kgS, tK)`. -/
def dDeriv (s : List Sample) : List ℚ := gradient (dKgS s) (dtK s)

/-- Rolling-std window `max(5, round(3.0*hz))` (also the consensus refiner's
sliding-window size). -/
def dRollWin (s : List Sample) : Nat := max 5 (jround (3 * dHz s)).toNat

/-- `rstd = rollingStd(kg, max(5, round(3.0*hz)))`. -/
def dRstd (sq : ℚ → ℚ) (s : List Sample) : List ℚ :=
  rollingStd sq (dKgHam s) (dRollWin s)

/-- `derivTh = min(0.05, max(0.01, 0.6*median(|deriv|)))`. -/
def dDerivTh (s : List Sample) : ℚ :=
  min (5/100) (max (1/100) ((6/10) * medianQ ((dDeriv s).map (|·|))))

/-- `stdTh = max(0.06, min(0.2, 0.9*medRstd))`, `medRstd` preferring the
strictly positive rolling stds. -/
def dStdTh (sq : ℚ → ℚ) (s : List Sample) : ℚ :=
  let rstd := dRstd sq s
  let posR := rstd.filter (0 < ·)
  let medRstd := medianQ (if posR.length ≠ 0 then posR else rstd)
  max (6/100) (min (2/10) ((9/10) * medRstd))

/-- `mask[i] = |deriv[i]| ≤ derivTh && rstd[i] ≤ stdTh`. -/
def dMask (sq : ℚ → ℚ) (s : List Sample) : List Bool :=
  (dDeriv s).enum.map fun p =>
    decide (|p.2| ≤ dDerivTh s ∧ (dRstd sq s).getD p.1 0 ≤ dStdTh sq s)

/-- `regions = contiguous(mask)`. -/
def dRegions (sq : ℚ → ℚ) (s : List Sample) : List (Nat × Nat) :=
  contiguous (dMask sq s)

/-- Mutable `best` record of the scoring loop. -/
structure BestRegion where
  score : ℚ
  a : Nat
  b : Nat
  segDer : ℚ
  segStd : ℚ
deriving DecidableEq, Repr

/-- One iteration of the scoring loop over candidate regions `[a, b)`:
regions shorter than 3 s are skipped, otherwise the scored candidate replaces
`best` when it scores strictly higher (`!best || score > best.score`). -/
def dBestStep (sq : ℚ → ℚ) (s : List Sample)
    (best : Option BestRegion) (r : Nat × Nat) : Option BestRegion :=
  let tK := dtK s
  let dur := tK.getD (r.2 - 1) 0 - tK.getD r.1 0
  if dur < 3 then best
  else
    let segDer := meanL (((dDeriv s).drop r.1).take (r.2 - r.1) |>.map (|·|))
    let segStd := meanL (((dRstd sq s).drop r.1).take (r.2 - r.1))
    let base := dur * (dDerivTh s / (segDer + 1/1000000)) * (dStdTh sq s / (segStd + 1/1000000))
    let tMid := (5/10) * (tK.getD r.1 0 + tK.getD (r.2 - 1) 0)
    let T0 := tK.headD 0
    let T1 := tK.getLastD 0
    let late := 5/10 + (5/10) * ((tMid - T0) / max (T1 - T0) (1/1000000))
    let score := base * late
    match best with
    | none => some ⟨score, r.1, r.2, segDer, segStd⟩
    | some bb => if bb.score < score then some ⟨score, r.1, r.2, segDer, segStd⟩ else some bb

/-- `best` after the scoring loop. -/
def dBest (sq : ℚ → ℚ) (s : List Sample) : Option BestRegion :=
  (dRegions sq s).foldl (dBestStep sq s) none

/-- `detectStablePlateauV6(samples)`.  `none` models the thrown
`new Error("no samples")` on the empty input; every other path returns a
`Plateau` as in the source. -/
def detectStablePlateauV6 (sq : ℚ → ℚ) (s : List Sample) : Option Plateau :=
  if s = [] then none
  else if (dKeepIdx s).length < 10 then some (fallbackTailMedian sq (dT s) (dKg0 s))
  else
    match dBest sq s with
    | none => some (fallbackTailMedian sq (dtK s) (dKgHam s))
    | some r =>
      let tK := dtK s
      let seg := ((dKgHam s).drop r.a).take (r.b - r.a)
      let w := medianQ seg
      let se := stdL sq seg / sq (seg.length : ℚ)
      let dur := tK.getD (r.b - 1) 0 - tK.getD r.a 0
      let q := clampQ ((5/10) * (1 - r.segDer / max (dDerivTh s) (1/1000000))
                        + (5/10) * (1 - r.segStd / max (dStdTh sq s) (1/1000000))) 0 1
      some { weight := w, uncertainty := se, quality := q, mode := "plateau-v6",
             start_s := tK.getD r.a 0, end_s := tK.getD (r.b - 1) 0, duration_s := dur,
             mean_slope := r.segDer, mean_std := r.segStd, n_points := seg.length }

/-! ### `consensusRefineV2`

The refiner re-runs the detector's positive-floor preprocessing on the current
samples (the source duplicates that code verbatim, so the `d…` stage
definitions above are reused), then slides `win`-sized windows looking for a
median within `band_kg` of the consensus scalar. -/

/-- Consensus output (`Refined.result` in the worker source). -/
structure ConsensusResult where
  weight : ℚ
  uncertainty : ℚ
  mode : String
  start_s : ℚ
  end_s : ℚ
  duration_s : ℚ
deriving DecidableEq, Repr

/-- `Refined` in the worker source. -/
structure Refined where
  consensus : ℚ
  result : Option ConsensusResult
deriving DecidableEq, Repr

/-- `consensus = median([firstPass.weight, ...recentRawWeights])`. -/
def consensusOf (firstPass : Plateau) (recentRawWeights : List ℚ) : ℚ :=
  medianQ (firstPass.weight :: recentRawWeights)

/-- Mutable `best` record of the window-scanning loop. -/
structure CBest where
  score : ℚ
  med : ℚ
  se : ℚ
  s : ℚ
  e : ℚ
  n : Nat
deriving DecidableEq, Repr

/-- `consider(rangeAll)`: scan `win`-sized windows (all of them, or only those
starting at `t ≥ tailStart`), keeping the best-scoring window whose median is
within `band` of `consensus`. -/
def considerPass (sq : ℚ → ℚ) (consensus band : ℚ) (tK kK : List ℚ)
    (win : Nat) (dur tailStart : ℚ) (rangeAll : Bool) : Option CBest :=
  (List.range (kK.length + 1 - win)).foldl
    (fun best i =>
      if ¬rangeAll ∧ tK.getD i 0 < tailStart then best
      else
        let seg := (kK.drop i).take win
        let segT := (tK.drop i).take win
        let m := medianQ seg
        if |m - consensus| ≤ band then
          let segStd := stdL sq seg
          let tMid := (5/10) * (segT.headD 0 + segT.getLastD 0)
          let late := 5/10 + (5/10) * ((tMid - tK.headD 0) / max dur (1/1000000))
          let closeness := band - |m - consensus| + 1/1000000
          let score := (closeness / band) * (1 / (segStd + 1/1000000)) * late
          let cand : CBest :=
            ⟨score, m, segStd / sq (seg.length : ℚ), segT.headD 0, segT.getLastD 0, seg.length⟩
          match best with
          | none => some cand
          | some bb => if bb.score < score then some cand else some bb
        else best)
    none

/-- `consensusRefineV2(currentSamples, firstPass, recentRawWeights, bandKg)`.
`none` models the `TypeError` thrown by `sorted[0].t` on an empty sample list
(unreachable from the worker, which only calls it on non-empty events). -/
def consensusRefineV2 (sq : ℚ → ℚ) (currentSamples : List Sample)
    (firstPass : Plateau) (recentRawWeights : List ℚ) (bandKg : ℚ) : Option Refined :=
  if currentSamples = [] then none
  else
    let consensus := consensusOf firstPass recentRawWeights
    if (dKeepIdx currentSamples).length < 10 then some ⟨consensus, none⟩
    else
      let tK := dtK currentSamples
      let kK := dkK currentSamples
      let win := dRollWin currentSamples
      let dur := tK.getLastD 0 - tK.headD 0
      let tailStart := max (tK.headD 0) (max (tK.getLastD 0 - 12) (tK.headD 0 + (75/100) * dur))
      let best :=
        match considerPass sq consensus bandKg tK kK win dur tailStart false with
        | some b => some b
        | none => considerPass sq consensus bandKg tK kK win dur tailStart true
      match best with
      | none => some ⟨consensus, none⟩
      | some b =>
        some ⟨consensus, some ⟨b.med, b.se, "consensus", b.s, b.e, b.e - b.s⟩⟩

/-! ### Server-side data model

Rows of the `scales`, `weight_events`, `weight_event_jobs` and
`weight_event_results` tables, as read and written by the ingest function and
the worker.  Row ids are `Nat`; freshly inserted rows take the current table
length as id. -/

/-- Job states (`pending → processing → done|failed`). -/
inductive JobStatus
  | pending
  | processing
  | done
  | failed
deriving DecidableEq, Repr

/-- A `scales` row. -/
structure ScaleRow where
  id : Nat
  device_id : String
  household_id : String
  display_name : String
deriving DecidableEq, Repr

/-- A `weight_events` row. -/
structure EventRow where
  id : Nat
  scale_id : Nat
  t0_epoch_ms : Option ℤ
  samples : List Sample
  sample_count : Nat
  peak_kg : Option ℚ
deriving DecidableEq, Repr

/-- A `weight_event_jobs` row. -/
structure JobRow where
  id : Nat
  event_id : Nat
  status : JobStatus
  created_at : Nat
  error : Option String
deriving DecidableEq, Repr

/-- Consensus columns of a result row (present only when the refiner returned
a window). -/
structure ConsensusCols where
  consensus_weight_kg : ℚ
  consensus_uncertainty_kg : ℚ
  consensus_band_kg : ℚ
  consensus_mode : String
  consensus_window_start_s : ℚ
  consensus_window_end_s : ℚ
  consensus_duration_s : ℚ
deriving DecidableEq, Repr

/-- A `weight_event_results` row (fields of the worker's `insertPayload`). -/
structure ResultRow where
  event_id : Nat
  scale_id : Nat
  mode : String
  raw_stable_weight_kg : ℚ
  raw_uncertainty_kg : ℚ
  raw_quality : ℚ
  window_start_s : ℚ
  window_end_s : ℚ
  duration_s : ℚ
  mean_slope_kg_per_s : ℚ
  mean_std_kg : ℚ
  n_points : Nat
  consensus_source_count : Nat
  consensus : ℚ
  consensusCols : Option ConsensusCols
  computed_at : Nat
deriving DecidableEq, Repr

/-- The relational store owned by the server side. -/
structure DB where
  scales : List ScaleRow
  events : List EventRow
  jobs : List JobRow
  results : List ResultRow
deriving DecidableEq, Repr

/-- `round(x, p) = Math.round(x*10^p)/10^p` (worker source). -/
def roundP (x : ℚ) (p : Nat) : ℚ := (jround (x * 10 ^ p) : ℚ) / 10 ^ p

/-! ### Ingest endpoint (`supabase/functions/ingest-weight/index.ts`) -/

/-- A `samples` element after JS `Number(...)` coercion: `none` models a
non-finite (`NaN`/`±Infinity`) coercion result. -/
structure SampleField where
  t : Option ℚ
  kg : Option ℚ
deriving DecidableEq, Repr

/-- The parsed request body.  `scale_id` is the already-coerced
`String(body.scale_id || "")`; `t0_epoch_ms` is `Number(body.t0_epoch_ms || 0)`
(`none` = non-finite); `samples = none` models a non-array field. -/
structure IngestBody where
  scale_id : String
  t0_epoch_ms : Option ℚ
  samples : Option (List SampleField)
deriving DecidableEq, Repr

/-- An ingest request: secret header and JSON body (`none` = unparsable). -/
structure IngestReq where
  headerSecret : Option String
  body : Option IngestBody
deriving DecidableEq, Repr

/-- Server environment: whether `SB_URL`/`SB_SERVICE_ROLE_KEY` are set, the
`FUNCTION_SECRET`, and `DEFAULT_HOUSEHOLD_ID`. -/
structure IngestEnv where
  sbConfigured : Bool
  functionSecret : Option String
  defaultHouseholdId : Option String
deriving DecidableEq, Repr

/-- HTTP response (status plus the JSON fields the handler can emit). -/
structure IngestResp where
  status : Nat
  error : Option String
  sample_count : Option Nat
  peak_kg : Option (Option ℚ)
deriving DecidableEq, Repr

/-- The sample-validation loop: first failing sample determines the error,
otherwise the parsed list in order. -/
def parseSamples : List SampleField → Except String (List Sample)
  | [] => .ok []
  | sf :: rest =>
    match sf.t with
    | none => .error "Each sample requires non-negative numeric 't'"
    | some t =>
      if t < 0 then .error "Each sample requires non-negative numeric 't'"
      else
        match sf.kg with
        | none => .error "Each sample requires numeric 'kg'"
        | some kg => (parseSamples rest).map (⟨t, kg⟩ :: ·)

/-- `peak_kg`: `null`-seeded running maximum over the parsed samples. -/
def peakKg (l : List Sample) : Option ℚ :=
  l.foldl (fun acc s => some (match acc with | none => s.kg | some p => max p s.kg)) none

/-- Modelled from the spec: the job row is created "as a side effect of event
insertion" (§3 Job) — the database trigger that enqueues the `pending` job on
`weight_events` insert is part of the repository's SQL schema, which is not
under `src/`; the ingest function itself only inserts the event.  Per the
spec, the two writes are transactionally consistent at the event-queue
boundary, so they are modelled as one atomic step. -/
def insertEventWithJob (db : DB) (scaleId : Nat) (t0 : Option ℤ)
    (parsed : List Sample) (now : Nat) : DB :=
  let evId := db.events.length
  { db with
    events := db.events ++
      [{ id := evId, scale_id := scaleId, t0_epoch_ms := t0, samples := parsed,
         sample_count := parsed.length, peak_kg := peakKg parsed }]
    jobs := db.jobs ++
      [{ id := db.jobs.length, event_id := evId, status := .pending,
         created_at := now, error := none }] }

/-- The ingest handler.  `upsertOk` and `insertOk` are oracles for the success
of the auto-registration upsert and the event insert (`upsert.error`,
`insErr` in the source); the `scales` lookup itself is modelled as reliable.
Returns the response and the resulting store. -/
def ingest (env : IngestEnv) (req : IngestReq) (db : DB)
    (upsertOk insertOk : Bool) (now : Nat) : IngestResp × DB :=
  if ¬env.sbConfigured then
    (⟨500, some "Server not configured: missing SB_URL or SB_SERVICE_ROLE_KEY", none, none⟩, db)
  else if env.functionSecret = none ∨ req.headerSecret ≠ env.functionSecret then
    (⟨401, some "Unauthorized", none, none⟩, db)
  else
    match req.body with
    | none => (⟨400, some "Invalid JSON body", none, none⟩, db)
    | some b =>
      if b.scale_id = "" then (⟨400, some "Missing 'scale_id'", none, none⟩, db)
      else
        match b.samples with
        | none => (⟨400, some "Missing or empty 'samples'", none, none⟩, db)
        | some [] => (⟨400, some "Missing or empty 'samples'", none, none⟩, db)
        | some ss =>
          match parseSamples ss with
          | .error m => (⟨400, some m, none, none⟩, db)
          | .ok parsed =>
            let t0 : Option ℤ := b.t0_epoch_ms.map jtrunc
            let finish : DB → Nat → IngestResp × DB := fun db1 scaleRowId =>
              if insertOk then
                (⟨200, none, some parsed.length, some (peakKg parsed)⟩,
                 insertEventWithJob db1 scaleRowId t0 parsed now)
              else (⟨500, some "Insert error", none, none⟩, db1)
            match db.scales.find? (fun r => r.device_id = b.scale_id) with
            | some row => finish db row.id
            | none =>
              match env.defaultHouseholdId with
              | none =>
                (⟨404, some "Unknown 'scale_id' and DEFAULT_HOUSEHOLD_ID not set", none, none⟩, db)
              | some hh =>
                if upsertOk then
                  let newRow : ScaleRow :=
                    ⟨db.scales.length, b.scale_id, hh, b.scale_id⟩
                  finish { db with scales := db.scales ++ [newRow] } newRow.id
                else (⟨500, some "Failed to auto-register scale_id", none, none⟩, db)

/-! ### Worker loop (`process_weight_event_worker/index.ts`)

The worker's claim phase is modelled exactly as written in the source: a
`select … where status = 'pending' order by created_at limit batch` followed by
a separate `update … where id in ids` that does **not** re-check the status. -/

/-- Step 1 of the worker: the `select` of pending job ids, oldest first. -/
def selectPending (db : DB) (batch : Nat) : List Nat :=
  ((((db.jobs.filter fun j => j.status = .pending).insertionSort
      fun a b => a.created_at ≤ b.created_at).take batch).map (·.id))

/-- Step 2 of the worker: `update {status: "processing", …} where id in ids` —
unconditional on the current status (the `attempts` column is set to a literal
`undefined`, i.e. left unchanged). -/
def markProcessing (db : DB) (ids : List Nat) : DB :=
  { db with jobs := db.jobs.map fun j =>
      if j.id ∈ ids then { j with status := .processing } else j }

/-- Update one job's status and error note. -/
def setJobStatus (db : DB) (jobId : Nat) (st : JobStatus) (err : Option String) : DB :=
  { db with jobs := db.jobs.map fun j =>
      if j.id = jobId then { j with status := st, error := err } else j }

/-- The up-to-10 most recent raw weights for a scale
(`order computed_at desc limit 10`). -/
def recentWeights (db : DB) (scaleId : Nat) : List ℚ :=
  ((((db.results.filter fun r => r.scale_id = scaleId).insertionSort
      fun a b => b.computed_at ≤ a.computed_at).take 10).map (·.raw_stable_weight_kg))

/-- The worker's per-job body: load the event; empty samples ⇒ job `done` with
`error = "no samples"` and no result row; otherwise run the detector, the
consensus refiner over the recent raw weights, insert a rounded result row and
mark the job `done`.  A missing event or a thrown detector/refiner exception
(unreachable for non-empty samples) marks the job `failed`. -/
def processJob (sq : ℚ → ℚ) (db : DB) (job : JobRow) (now : Nat) : DB :=
  match db.events.find? (fun e => e.id = job.event_id) with
  | none => setJobStatus db job.id .failed (some "event not found")
  | some ev =>
    if ev.samples = [] then setJobStatus db job.id .done (some "no samples")
    else
      match detectStablePlateauV6 sq ev.samples with
      | none => setJobStatus db job.id .failed (some "no samples")
      | some raw =>
        let recent := recentWeights db ev.scale_id
        match consensusRefineV2 sq ev.samples raw recent 1 with
        | none => setJobStatus db job.id .failed (some "refine error")
        | some refined =>
          let row : ResultRow :=
            { event_id := ev.id, scale_id := ev.scale_id, mode := raw.mode,
              raw_stable_weight_kg := roundP raw.weight 5,
              raw_uncertainty_kg := roundP raw.uncertainty 5,
              raw_quality := roundP raw.quality 3,
              window_start_s := roundP raw.start_s 3,
              window_end_s := roundP raw.end_s 3,
              duration_s := roundP raw.duration_s 3,
              mean_slope_kg_per_s := roundP raw.mean_slope 6,
              mean_std_kg := roundP raw.mean_std 5,
              n_points := raw.n_points,
              consensus_source_count := recent.length,
              consensus := refined.consensus,
              consensusCols := refined.result.map fun cr =>
                { consensus_weight_kg := roundP cr.weight 5,
                  consensus_uncertainty_kg := roundP cr.uncertainty 5,
                  consensus_band_kg := 1,
                  consensus_mode := cr.mode,
                  consensus_window_start_s := roundP cr.start_s 3,
                  consensus_window_end_s := roundP cr.end_s 3,
                  consensus_duration_s := roundP cr.duration_s 3 },
              computed_at := now }
          setJobStatus { db with results := db.results ++ [row] } job.id .done none

/-! ### Firmware (`src/main.cpp`)

The event-capture state machine of `loop()`.  Device time (`millis()`) is an
explicit `Nat` parameter assumed non-wrapping; one `loopTick` models one
iteration of the IDLE cadence body (lines 1391–1459) or one ready ACTIVE read
(lines 1464–1502).  `kg` readings are the converted values in kilograms. -/

namespace Fw

/-- `TRIGGER_KG = 4.00f`. -/
def TRIGGER_KG : ℚ := 4

/-- `RELEASE_KG = 3.00f`. -/
def RELEASE_KG : ℚ := 3

/-- `BELOW_HOLD_MS = 2000`. -/
def BELOW_HOLD_MS : Nat := 2000

/-- `ACTIVE_MAX_MS = 90000`. -/
def ACTIVE_MAX_MS : Nat := 90000

/-- `MAX_SAMPLES = 6000`. -/
def MAX_SAMPLES : Nat := 6000

/-- `POST_ACTIVE_COOLDOWN_MS = 4000`. -/
def POST_ACTIVE_COOLDOWN_MS : Nat := 4000

/-- `ARM_BAND_KG = 1.0f`. -/
def ARM_BAND_KG : ℚ := 1

/-- `ARM_STABLE_MS = 2500`. -/
def ARM_STABLE_MS : Nat := 2500

/-- `RISE_MIN_KG = 0.20f`. -/
def RISE_MIN_KG : ℚ := 2/10

/-- The `0.005 kg` deadband applied to converted readings. -/
def DEADBAND_KG : ℚ := 5/1000

/-- A buffered sample `{uint32_t t_ms; float kg;}`. -/
structure FwSample where
  t_ms : Nat
  kg : ℚ
deriving DecidableEq, Repr

/-- `RunState`. -/
inductive RunState
  | IDLE
  | ACTIVE
deriving DecidableEq, Repr

/-- The globals and IDLE-scope statics of `loop()` that the state machine
reads and writes. -/
structure FwState where
  state : RunState
  buf : List FwSample
  session_t0 : Nat
  below_start_ms : Nat
  pauseUntil : Nat
  calInProgress : Bool
  armOk : Bool
  armBelowStartMs : Nat
  emaInit : Bool
  idleKgEMA : ℚ
  prevIdleKgEMA : ℚ
deriving DecidableEq, Repr

/-- The EMA after folding in this tick's reading
(`idleKgEMA = 0.9*idleKgEMA + 0.1*kg_now`, seeded on first use). -/
def emaNext (st : FwState) (kgNow : ℚ) : ℚ :=
  if st.emaInit then (9/10) * st.idleKgEMA + (1/10) * kgNow else kgNow

/-- The arm-window start after this tick's band tracking. -/
def armBelowNext (st : FwState) (now : Nat) (kgNow : ℚ) : Nat :=
  if |emaNext st kgNow| ≤ ARM_BAND_KG then
    (if st.armBelowStartMs = 0 then now else st.armBelowStartMs)
  else 0

/-- The arm gate after this tick: earned once `|EMA| ≤ ARM_BAND_KG` has held
for `ARM_STABLE_MS`; leaving the band keeps an already-earned gate. -/
def armOkNext (st : FwState) (now : Nat) (kgNow : ℚ) : Bool :=
  if |emaNext st kgNow| ≤ ARM_BAND_KG then
    (if ARM_STABLE_MS ≤ now - (if st.armBelowStartMs = 0 then now else st.armBelowStartMs)
     then true else st.armOk)
  else st.armOk

/-- `rise = idleKgEMA - prevIdleKgEMA` (EMA updated, before the deadband). -/
def riseAt (st : FwState) (kgNow : ℚ) : ℚ := emaNext st kgNow - st.prevIdleKgEMA

/-- The EMA after the small deadband (`|EMA| < 0.005 → 0`). -/
def emaDeadbanded (st : FwState) (kgNow : ℚ) : ℚ :=
  if |emaNext st kgNow| < DEADBAND_KG then 0 else emaNext st kgNow

/-- One IDLE cadence tick (lines 1391–1459): EMA update, arm-gate tracking,
rise computation, deadband, and the guarded transition to ACTIVE, which clears
the buffer, records `session_t0`, resets the release timer and consumes the
arm gate. -/
def idleTick (st : FwState) (now : Nat) (kgNow : ℚ) : FwState :=
  let armOk1 := armOkNext st now kgNow
  let ab1 := armBelowNext st now kgNow
  let rise := riseAt st kgNow
  let ema2 := emaDeadbanded st kgNow
  if armOk1 = true ∧ RISE_MIN_KG ≤ rise ∧ TRIGGER_KG ≤ |ema2| then
    { st with state := .ACTIVE, buf := [], session_t0 := now, below_start_ms := 0,
              armOk := false, armBelowStartMs := 0, emaInit := true,
              idleKgEMA := ema2, prevIdleKgEMA := emaNext st kgNow }
  else
    { st with armOk := armOk1, armBelowStartMs := ab1, emaInit := true,
              idleKgEMA := ema2, prevIdleKgEMA := emaNext st kgNow }

/-- The buffer after an ACTIVE read: append `(t_rel, kg)` (deadbanded) while
under `MAX_SAMPLES`. -/
def activePushBuf (st : FwState) (now : Nat) (kgRaw : ℚ) : List FwSample :=
  let kg := if |kgRaw| < DEADBAND_KG then 0 else kgRaw
  if st.buf.length < MAX_SAMPLES then st.buf ++ [⟨now - st.session_t0, kg⟩] else st.buf

/-- One ACTIVE iteration with a ready reading (lines 1464–1502): push the
sample, then the hysteresis release check, then the hard cap.  `uploadOk` is
the return value of `postEventToSupabase`; the source only logs it, so the
resulting state does not depend on it.  Neither termination path clears
`g_buf`. -/
def activeStep (st : FwState) (now : Nat) (kgRaw : ℚ) (uploadOk : Bool) : FwState :=
  let kg := if |kgRaw| < DEADBAND_KG then 0 else kgRaw
  let buf1 := activePushBuf st now kgRaw
  let hyst : Nat × RunState × Nat :=
    if |kg| < RELEASE_KG then
      if st.below_start_ms = 0 then (now, .ACTIVE, st.pauseUntil)
      else if BELOW_HOLD_MS ≤ now - st.below_start_ms then
        (st.below_start_ms, .IDLE, now + POST_ACTIVE_COOLDOWN_MS)
      else (st.below_start_ms, .ACTIVE, st.pauseUntil)
    else (0, .ACTIVE, st.pauseUntil)
  let hard : RunState × Nat :=
    if ACTIVE_MAX_MS ≤ now - st.session_t0 then (.IDLE, now + POST_ACTIVE_COOLDOWN_MS)
    else (hyst.2.1, hyst.2.2)
  let _ := uploadOk
  { st with buf := buf1, below_start_ms := hyst.1, state := hard.1, pauseUntil := hard.2 }

/-- One `loop()` iteration of the capture state machine: suspended entirely
during calibration or cooldown; otherwise one IDLE cadence tick (with `kg_now
= 0` when no reading was ready within 5 ms) or, in ACTIVE, one read when the
ADC is ready (`reading = none` models "not ready": nothing happens). -/
def loopTick (st : FwState) (now : Nat) (reading : Option ℚ) (uploadOk : Bool) : FwState :=
  if st.calInProgress = true ∨ now < st.pauseUntil then st
  else
    match st.state with
    | .IDLE => idleTick st now (reading.getD 0)
    | .ACTIVE =>
      match reading with
      | some kg => activeStep st now kg uploadOk
      | none => st

/-! #### `readStableRaw` / `computeStdDev` (lines 933–968) -/

/-- `computeStdDev(arr, n, mean)`: sample standard deviation with divisor
`n-1`, `0` for fewer than two samples (`sq` models `sqrt`). -/
def computeStdDev (sq : ℚ → ℚ) (arr : List ℤ) (mean : ℚ) : ℚ :=
  let acc := (arr.map fun v => ((v : ℚ) - mean) ^ 2).sum
  if 1 < arr.length then sq (acc / ((arr.length : ℚ) - 1)) else 0

/-- Mean of collected raw counts. -/
def meanZ (l : List ℤ) : ℚ := ((l.sum : ℚ)) / l.length

/-- The early-return test of the sampling loop after `n` samples: `n ≥
minSamples && elapsed ≥ minDurationMs` and the collected samples' stddev is at
most `maxStdDevCounts`. -/
def stableStop (sq : ℚ → ℚ) (reads : Nat → ℤ) (elapsed : Nat → Nat)
    (minSamples : Nat) (maxStdDevCounts : ℚ) (minDurationMs : Nat) (n : Nat) : Prop :=
  let buf := (List.range n).map reads
  minSamples ≤ n ∧ minDurationMs ≤ elapsed n ∧
    computeStdDev sq buf (meanZ buf) ≤ maxStdDevCounts

instance (sq : ℚ → ℚ) (reads : Nat → ℤ) (elapsed : Nat → Nat)
    (minSamples : Nat) (maxStdDevCounts : ℚ) (minDurationMs : Nat) (n : Nat) :
    Decidable (stableStop sq reads elapsed minSamples maxStdDevCounts minDurationMs n) := by
  unfold stableStop; infer_instance

/-- The `while (n < maxSamples)` loop, structural on the remaining capacity:
read one sample, early-return the rounded mean when the stop test passes,
otherwise continue; at capacity return the rounded mean of everything
collected. -/
def readStableRawGo (sq : ℚ → ℚ) (reads : Nat → ℤ) (elapsed : Nat → Nat)
    (minSamples : Nat) (maxStdDevCounts : ℚ) (minDurationMs : Nat) :
    Nat → List ℤ → ℤ
  | 0, buf => lroundQ (meanZ buf)
  | fuel + 1, buf =>
    let buf' := buf ++ [reads buf.length]
    if minSamples ≤ buf'.length ∧ minDurationMs ≤ elapsed buf'.length ∧
        computeStdDev sq buf' (meanZ buf') ≤ maxStdDevCounts then
      lroundQ (meanZ buf')
    else readStableRawGo sq reads elapsed minSamples maxStdDevCounts minDurationMs fuel buf'

/-- The first `n` ADC reads, in order. -/
def prefixReads (reads : Nat → ℤ) (n : Nat) : List ℤ := (List.range n).map reads

/-- `readStableRaw(minSamples, maxSamples, maxStdDevCounts, minDurationMs)`.
The ADC reads are the stream `reads`; `elapsed n` is `millis() - start` right
after the `n`-th sample.  `maxSamples` is clamped to the 128-slot static
buffer. -/
def readStableRaw (sq : ℚ → ℚ) (reads : Nat → ℤ) (elapsed : Nat → Nat)
    (minSamples maxSamples : Nat) (maxStdDevCounts : ℚ) (minDurationMs : Nat) : ℤ :=
  readStableRawGo sq reads elapsed minSamples maxStdDevCounts minDurationMs
    (min maxSamples 128) []

end Fw

/-! ### Derived notions and concrete instances used in statements and
witnesses -/

/-- First normalised timestamp (`t_first`; equals 0 for non-empty input). -/
def dTfirst (s : List Sample) : ℚ := (dT s).headD 0

/-- Last normalised timestamp (`t_last`). -/
def dTlast (s : List Sample) : ℚ := (dT s).getLastD 0

/-- A concrete square-root stand-in for witnesses (theorems hold for every
`sq`). -/
def sqZero : ℚ → ℚ := fun _ => 0

/-- 11 constant samples at 2 Hz spanning 5 s: lands in the plateau branch. -/
def wSamples11 : List Sample := (List.range 11).map fun i => ⟨500 * i, 5⟩

/-- 5 constant samples: fewer than 10 survive, lands in the fallback branch. -/
def wSamples5 : List Sample := (List.range 5).map fun i => ⟨1000 * i, 5⟩

/-- 12 constant samples at 1 Hz, for the consensus witness. -/
def wSamples12 : List Sample := (List.range 12).map fun i => ⟨1000 * i, 5⟩

/-- A detector output with weight 5, for the consensus witness. -/
def wFirstPass : Plateau := ⟨5, 0, 1, "plateau-v6", 0, 11, 11, 0, 0, 12⟩

/-- Server environment for ingest witnesses. -/
def wEnv : IngestEnv := ⟨true, some "sec", some "hh"⟩

/-- Store with one registered scale, for ingest witnesses. -/
def wDb : DB := ⟨[⟨7, "dev1", "hh", "dev1"⟩], [], [], []⟩

/-- A valid one-sample ingest request. -/
def wReqOk : IngestReq := ⟨some "sec", some ⟨"dev1", some 0, some [⟨some 0, some 5⟩]⟩⟩

/-- An authorized ingest request whose `samples` array is empty. -/
def wReqEmpty : IngestReq := ⟨some "sec", some ⟨"dev1", some 0, some []⟩⟩

/-- Store with a single pending job, for the job-claim race. -/
def wDbJob : DB := ⟨[], [⟨10, 7, none, [], 0, none⟩], [⟨1, 10, .pending, 0, none⟩], []⟩

/-- Store with one job whose event has an empty samples array. -/
def wDbEmptyEvent : DB := ⟨[⟨7, "dev1", "hh", "dev1"⟩], [⟨10, 7, none, [], 0, none⟩],
  [⟨1, 10, .processing, 0, none⟩], []⟩

/-- A firmware state mid-ACTIVE whose release timer is about to expire. -/
def wActiveState : Fw.FwState :=
  { state := .ACTIVE, buf := [⟨0, 5⟩], session_t0 := 0, below_start_ms := 500,
    pauseUntil := 0, calInProgress := false, armOk := false, armBelowStartMs := 0,
    emaInit := true, idleKgEMA := 0, prevIdleKgEMA := 0 }

/-- A firmware state in IDLE, armed, with the EMA rising through the
trigger. -/
def wIdleState : Fw.FwState :=
  { state := .IDLE, buf := [⟨1, 1⟩], session_t0 := 0, below_start_ms := 3,
    pauseUntil := 0, calInProgress := false, armOk := true, armBelowStartMs := 0,
    emaInit := true, idleKgEMA := 44/10, prevIdleKgEMA := 44/10 }

/-! ## Helper lemmas -/

/-- A fold with an `Option` accumulator stays `none` when every step maps
`none` to `none`. -/
theorem foldl_none {α β : Type} (f : Option β → α → Option β) (l : List α)
    (h : ∀ a ∈ l, f none a = none) : l.foldl f none = none := by
  induction l with
  | nil => rfl
  | cons a l ih =>
    rw [List.foldl_cons, h a (List.mem_cons_self a l)]
    exact ih fun x hx => h x (List.mem_cons_of_mem a hx)

/-- A fold with an `Option` accumulator only produces values satisfying `Q`
when every step either keeps the accumulator or produces a `Q` value. -/
theorem foldl_some_pred {α β : Type} (f : Option β → α → Option β) (Q : β → Prop)
    (l : List α) :
    ∀ acc : Option β, (∀ r, acc = some r → Q r) →
      (∀ b a, a ∈ l → ∀ r, f b a = some r → b = some r ∨ Q r) →
      ∀ r, l.foldl f acc = some r → Q r := by
  induction l with
  | nil => intro acc hacc _ r hr; exact hacc r hr
  | cons a l ih =>
    intro acc hacc hstep r hr
    rw [List.foldl_cons] at hr
    refine ih (f acc a) ?_ (fun b x hx => hstep b x (List.mem_cons_of_mem a hx)) r hr
    intro r' hr'
    rcases hstep acc a (List.mem_cons_self a l) r' hr' with h | h
    · exact hacc r' h
    · exact h

/-- Every run `[a, b)` produced by `contiguousAux` satisfies `a < b` and
`b ≤ i + l.length` (given that any open run started before `i`). -/
theorem contiguousAux_mem (l : List Bool) :
    ∀ (i : Nat) (st : Option Nat), (∀ a0, st = some a0 → a0 < i) →
      ∀ a b : Nat, (a, b) ∈ contiguousAux l i st → a < b ∧ b ≤ i + l.length := by
  induction l with
  | nil =>
    intro i st hst a b hm
    cases st with
    | none => simp [contiguousAux] at hm
    | some a0 =>
      simp only [contiguousAux, List.mem_singleton, Prod.mk.injEq] at hm
      obtain ⟨rfl, rfl⟩ := hm
      exact ⟨hst a (rfl), by simp⟩
  | cons x rest ih =>
    intro i st hst a b hm
    cases st with
    | none =>
      simp only [contiguousAux] at hm
      by_cases hx : x
      · rw [if_pos hx] at hm
        have := ih (i + 1) (some i) (fun a0 h => by cases h; omega) a b hm
        simpa [Nat.add_assoc, Nat.add_comm 1 rest.length] using this
      · rw [if_neg hx] at hm
        have := ih (i + 1) none (fun a0 h => by cases h) a b hm
        simpa [Nat.add_assoc, Nat.add_comm 1 rest.length] using this
    | some a0 =>
      simp only [contiguousAux] at hm
      by_cases hx : x
      · rw [if_pos hx] at hm
        have := ih (i + 1) (some a0)
          (fun a1 h => by cases h; exact Nat.lt_succ_of_lt (hst a0 rfl)) a b hm
        simpa [Nat.add_assoc, Nat.add_comm 1 rest.length] using this
      · rw [if_neg hx] at hm
        rcases List.mem_cons.mp hm with h | h
        · obtain ⟨rfl, rfl⟩ := Prod.mk.injEq .. ▸ h
          exact ⟨hst a rfl, by omega⟩
        · have := ih (i + 1) none (fun a1 h => by cases h) a b h
          simpa [Nat.add_assoc, Nat.add_comm 1 rest.length] using this

/-- Every run of `contiguous` is a non-empty in-bounds index interval. -/
theorem contiguous_mem (mask : List Bool) {a b : Nat}
    (h : (a, b) ∈ contiguous mask) : a < b ∧ b ≤ mask.length := by
  have := contiguousAux_mem mask 0 none (fun a0 h => by cases h) a b h
  simpa using this

theorem hampel_length (x : List ℚ) (k : Nat) (t0 : ℚ) : (hampel x k t0).length = x.length := by
  simp [hampel]

theorem movingAvg_length (x : List ℚ) (w : Nat) : (movingAvg x w).length = x.length := by
  unfold movingAvg
  split <;> simp

theorem gradient_length (y x : List ℚ) : (gradient y x).length = y.length := by
  by_cases h : y.length < 2 <;> simp [gradient, h]

theorem dMask_length (sq : ℚ → ℚ) (s : List Sample) :
    (dMask sq s).length = (dtK s).length := by
  simp [dMask, dDeriv, gradient_length, dKgS, movingAvg_length, dKgHam, hampel_length, dkK, dtK]

/-- In a `(· ≤ ·)`-sorted list, every member is at least the (default-0)
head. -/
theorem sorted_headD_le {l : List ℚ} (hs : l.Sorted (· ≤ ·)) {x : ℚ} (hx : x ∈ l) :
    l.headD 0 ≤ x := by
  cases l with
  | nil => cases hx
  | cons a l =>
    rcases List.mem_cons.mp hx with rfl | h
    · exact le_refl _
    · exact List.rel_of_sorted_cons hs x h

/-- In a `(· ≤ ·)`-sorted list, every member is at most the (default-0)
last element. -/
theorem sorted_le_getLastD {l : List ℚ} (hs : l.Sorted (· ≤ ·)) :
    ∀ {x : ℚ}, x ∈ l → x ≤ l.getLastD 0 := by
  induction l with
  | nil => intro x hx; cases hx
  | cons a l ih =>
    intro x hx
    cases l with
    | nil =>
      rcases List.mem_cons.mp hx with h | h
      · subst h; exact le_refl _
      · cases h
    | cons b l' =>
      have hstep : (a :: b :: l').getLastD 0 = (b :: l').getLastD 0 := by
        rw [List.getLastD_cons 0 a (b :: l'), List.getLastD_cons a b l',
          List.getLastD_cons 0 b l']
      rw [hstep]
      rcases List.mem_cons.mp hx with h | h
      · subst h
        have hab : x ≤ b := List.rel_of_sorted_cons hs b (List.mem_cons_self b l')
        exact le_trans hab (ih hs.of_cons (List.mem_cons_self b l'))
      · exact ih hs.of_cons h

instance : IsTotal Sample (fun a b => a.t ≤ b.t) := ⟨fun a b => le_total a.t b.t⟩

instance : IsTrans Sample (fun a b => a.t ≤ b.t) := ⟨fun _ _ _ h1 h2 => le_trans h1 h2⟩

theorem dSorted_sorted (s : List Sample) :
    (dSorted s).Sorted (fun a b => a.t ≤ b.t) :=
  List.sorted_insertionSort _ s

theorem dT_sorted (s : List Sample) : (dT s).Sorted (· ≤ ·) := by
  unfold dT
  refine List.Pairwise.map _ ?_ (dSorted_sorted s)
  intro a b hab
  exact div_le_div_of_le_of_nonneg (by linarith) (by norm_num)

theorem dT_length (s : List Sample) : (dT s).length = s.length := by
  simp [dT, dSorted, List.length_insertionSort]

theorem dKg0_length (s : List Sample) : (dKg0 s).length = s.length := by
  simp [dKg0, dSorted, List.length_insertionSort]

/-- The normalised first timestamp is `0` (for a non-empty event). -/
theorem dT_headD (s : List Sample) (hne : s ≠ []) : (dT s).headD 0 = 0 := by
  have hlen : (dSorted s).length = s.length := by simp [dSorted, List.length_insertionSort]
  cases hd : dSorted s with
  | nil =>
    exact absurd (by rw [← List.length_eq_zero, ← hlen, hd]; rfl) hne
  | cons a rest =>
    simp [dT, hd]

/-- Every kept index is a valid index into the sorted series. -/
theorem dKeepIdx_lt {s : List Sample} {i : Nat} (h : i ∈ dKeepIdx s) :
    i < s.length := by
  simp only [dKeepIdx, List.mem_map, List.mem_filter] at h
  obtain ⟨p, ⟨hp, _⟩, rfl⟩ := h
  have := List.fst_lt_of_mem_enum hp
  rw [dKg0_length] at this
  exact this

theorem dtK_length (s : List Sample) : (dtK s).length = (dKeepIdx s).length := by
  simp [dtK]

theorem dkK_length (s : List Sample) : (dkK s).length = (dKeepIdx s).length := by
  simp [dkK]

/-- Every entry of `tK` is an entry of the normalised time series. -/
theorem dtK_getD_mem {s : List Sample} {a : Nat} (ha : a < (dtK s).length) :
    (dtK s).getD a 0 ∈ dT s := by
  rw [dtK] at ha ⊢
  rw [List.getD_eq_get _ _ ha, List.get_map]
  set i := (dKeepIdx s).get ⟨a, by simpa using ha⟩ with hi
  have hmem : i ∈ dKeepIdx s := by rw [hi]; exact List.get_mem _ _ _
  have hilt : i < (dT s).length := by rw [dT_length]; exact dKeepIdx_lt hmem
  rw [List.getD_eq_get _ _ hilt]
  exact List.get_mem _ _ _

/-- The scoring loop keeps `none` when every region is shorter than 3 s. -/
theorem dBest_none_of_short (sq : ℚ → ℚ) (s : List Sample)
    (h : ∀ ab ∈ dRegions sq s, (dtK s).getD (ab.2 - 1) 0 - (dtK s).getD ab.1 0 < 3) :
    dBest sq s = none := by
  refine foldl_none _ _ fun ab hab => ?_
  have hd := h ab hab
  unfold dBestStep
  rw [if_pos hd]

/-- The properties of a `fallbackTailMedian` result: mode, quality 0.65, the
tail window start, and the weight being the median of the kg values in the
tail. -/
theorem fallbackTailMedian_spec (sq : ℚ → ℚ) (t kg : List ℚ) :
    (fallbackTailMedian sq t kg).mode = "fallback-tail-median" ∧
    (fallbackTailMedian sq t kg).quality = 65/100 ∧
    (fallbackTailMedian sq t kg).start_s
      = max (t.headD 0) (t.getLastD 0 - max 12 ((25/100) * (t.getLastD 0 - t.headD 0))) ∧
    (fallbackTailMedian sq t kg).end_s = t.getLastD 0 ∧
    (fallbackTailMedian sq t kg).weight
      = medianQ ((t.enum.filter fun p => (fallbackTailMedian sq t kg).start_s ≤ p.2).map
          fun p => kg.getD p.1 0) := by
  refine ⟨rfl, rfl, rfl, rfl, ?_⟩
  unfold fallbackTailMedian
  simp [List.map_map, Function.comp_def]

/-- C10 helper: on a non-empty input the detector takes one of its three
`some` branches. -/
theorem detect_cases (sq : ℚ → ℚ) (s : List Sample) (hne : s ≠ []) :
    ∃ p, detectStablePlateauV6 sq s = some p ∧
      (p.mode = "plateau-v6" ∨ p.mode = "fallback-tail-median") := by
  unfold detectStablePlateauV6
  rw [if_neg hne]
  by_cases hk : (dKeepIdx s).length < 10
  · rw [if_pos hk]
    exact ⟨_, rfl, Or.inr rfl⟩
  · rw [if_neg hk]
    cases hb : dBest sq s with
    | none => exact ⟨_, rfl, Or.inr rfl⟩
    | some r => exact ⟨_, rfl, Or.inl rfl⟩

/-- C10: `detectStablePlateauV6` throws exactly on the empty list and
otherwise returns a plateau-path or tail-median result. -/
theorem detect_total_nonempty (sq : ℚ → ℚ) (s : List Sample) :
    (detectStablePlateauV6 sq s = none ↔ s = []) ∧
    (∀ p, detectStablePlateauV6 sq s = some p →
      p.mode = "plateau-v6" ∨ p.mode = "fallback-tail-median") := by
  constructor
  · constructor
    · intro hnone
      by_contra hne
      obtain ⟨p, hp, _⟩ := detect_cases sq s hne
      rw [hp] at hnone
      cases hnone
    · intro h
      subst h
      rfl
  · intro p hp
    by_cases hne : s = []
    · subst hne; cases hp
    · obtain ⟨p', hp', hm⟩ := detect_cases sq s hne
      rw [hp'] at hp
      cases hp
      exact hm

unseal Rat.add Rat.mul Rat.sub Rat.inv in
/-- C10 witness at a concrete non-empty input. -/
theorem detect_total_nonempty_witness :
    wSamples5 ≠ ([] : List Sample) ∧ detectStablePlateauV6 sqZero wSamples5 ≠ none := by
  have h := (detect_total_nonempty sqZero wSamples5).1
  refine ⟨by decide, fun hn => ?_⟩
  have : wSamples5 = [] := h.mp hn
  exact absurd this (by decide)

/-- C3: whenever fewer than 10 samples survive the positive-floor filter, or
no stable region lasts at least 3 s, the detector falls back to the tail
median of the corresponding series (raw series in the first case, the
Hampel-filtered kept series in the second), with `quality = 0.65`, the tail
starting at `max(t_first, t_last − max(12, 0.25·duration))`, and the weight
being the median of the kg values in that tail. -/
theorem detect_fallback_spec (sq : ℚ → ℚ) (s : List Sample) (hne : s ≠ [])
    (hfb : (dKeepIdx s).length < 10 ∨
      ∀ ab ∈ dRegions sq s, (dtK s).getD (ab.2 - 1) 0 - (dtK s).getD ab.1 0 < 3) :
    ∃ T K, (T, K) = (if (dKeepIdx s).length < 10 then (dT s, dKg0 s)
                     else (dtK s, dKgHam s)) ∧
      detectStablePlateauV6 sq s = some (fallbackTailMedian sq T K) ∧
      (fallbackTailMedian sq T K).mode = "fallback-tail-median" ∧
      (fallbackTailMedian sq T K).quality = 65/100 ∧
      (fallbackTailMedian sq T K).start_s
        = max (T.headD 0) (T.getLastD 0 - max 12 ((25/100) * (T.getLastD 0 - T.headD 0))) ∧
      (fallbackTailMedian sq T K).weight
        = medianQ ((T.enum.filter fun p => (fallbackTailMedian sq T K).start_s ≤ p.2).map
            fun p => K.getD p.1 0) := by
  by_cases hk : (dKeepIdx s).length < 10
  · refine ⟨dT s, dKg0 s, by rw [if_pos hk], ?_, ?_⟩
    · unfold detectStablePlateauV6
      rw [if_neg hne, if_pos hk]
    · obtain ⟨h1, h2, h3, _, h5⟩ := fallbackTailMedian_spec sq (dT s) (dKg0 s)
      exact ⟨h1, h2, h3, h5⟩
  · have hshort : ∀ ab ∈ dRegions sq s,
        (dtK s).getD (ab.2 - 1) 0 - (dtK s).getD ab.1 0 < 3 := hfb.resolve_left hk
    have hbest := dBest_none_of_short sq s hshort
    refine ⟨dtK s, dKgHam s, by rw [if_neg hk], ?_, ?_⟩
    · unfold detectStablePlateauV6
      rw [if_neg hne, if_neg hk, hbest]
    · obtain ⟨h1, h2, h3, _, h5⟩ := fallbackTailMedian_spec sq (dtK s) (dKgHam s)
      exact ⟨h1, h2, h3, h5⟩

unseal Rat.add Rat.mul Rat.sub Rat.inv in
/-- C3 witness: 5 samples survive (< 10), the detector returns the tail
median with quality 0.65. -/
theorem detect_fallback_spec_witness :
    (dKeepIdx wSamples5).length < 10 ∧
    ∃ r, detectStablePlateauV6 sqZero wSamples5 = some r ∧
      r.mode = "fallback-tail-median" ∧ r.quality = 65/100 := by
  obtain ⟨T, K, _, hdet, hmode, hq, _, _⟩ :=
    detect_fallback_spec sqZero wSamples5 (by decide) (Or.inl (by decide))
  exact ⟨by decide, fallbackTailMedian sqZero T K, hdet, hmode, hq⟩

/-- Any region selected by the scoring loop is one of the candidate regions
and lasted at least 3 s. -/
theorem dBest_some_spec (sq : ℚ → ℚ) (s : List Sample) {r : BestRegion}
    (h : dBest sq s = some r) :
    ∃ ab ∈ dRegions sq s, r.a = ab.1 ∧ r.b = ab.2 ∧
      3 ≤ (dtK s).getD (ab.2 - 1) 0 - (dtK s).getD ab.1 0 := by
  refine foldl_some_pred _
    (fun r' => ∃ ab ∈ dRegions sq s, r'.a = ab.1 ∧ r'.b = ab.2 ∧
      3 ≤ (dtK s).getD (ab.2 - 1) 0 - (dtK s).getD ab.1 0)
    _ none (fun r' h' => by cases h') ?_ r h
  intro b ab hab r' hr'
  simp only [dBestStep] at hr'
  rcases ite_eq_iff.mp hr' with ⟨_, hr2⟩ | ⟨hd, hr2⟩
  · exact Or.inl hr2
  · cases b with
    | none =>
      cases hr2
      exact Or.inr ⟨ab, hab, rfl, rfl, not_lt.mp hd⟩
    | some bb =>
      rcases ite_eq_iff.mp hr2 with ⟨_, hr3⟩ | ⟨_, hr3⟩
      · cases hr3
        exact Or.inr ⟨ab, hab, rfl, rfl, not_lt.mp hd⟩
      · exact Or.inl hr3

/-- C2: every `plateau-v6` result's window lies inside the normalised time
range and lasts at least 3 s. -/
theorem plateau_window_inside (sq : ℚ → ℚ) (s : List Sample) (p : Plateau)
    (hdet : detectStablePlateauV6 sq s = some p) (hmode : p.mode = "plateau-v6") :
    dTfirst s ≤ p.start_s ∧ p.start_s ≤ p.end_s ∧ p.end_s ≤ dTlast s ∧
      3 ≤ p.end_s - p.start_s := by
  by_cases hne : s = []
  · rw [hne] at hdet; cases hdet
  unfold detectStablePlateauV6 at hdet
  rw [if_neg hne] at hdet
  by_cases hk : (dKeepIdx s).length < 10
  · rw [if_pos hk] at hdet
    cases hdet
    simp [fallbackTailMedian] at hmode
  · rw [if_neg hk] at hdet
    cases hb : dBest sq s with
    | none =>
      rw [hb] at hdet
      cases hdet
      simp [fallbackTailMedian] at hmode
    | some r =>
      rw [hb] at hdet
      cases hdet
      obtain ⟨ab, hab, ha, hbb, hdur⟩ := dBest_some_spec sq s hb
      have hbounds := contiguous_mem (dMask sq s) hab
      have hlen : (dMask sq s).length = (dtK s).length := dMask_length sq s
      have hblt : ab.2 - 1 < (dtK s).length := by omega
      have halt : ab.1 < (dtK s).length := by omega
      have hmem1 : (dtK s).getD ab.1 0 ∈ dT s := dtK_getD_mem halt
      have hmem2 : (dtK s).getD (ab.2 - 1) 0 ∈ dT s := dtK_getD_mem hblt
      have hsorted := dT_sorted s
      have h1 : dTfirst s ≤ (dtK s).getD ab.1 0 := sorted_headD_le hsorted hmem1
      have h2 : (dtK s).getD (ab.2 - 1) 0 ≤ dTlast s := sorted_le_getLastD hsorted hmem2
      dsimp only
      rw [ha, hbb]
      exact ⟨h1, by linarith, h2, hdur⟩

set_option maxRecDepth 100000 in
unseal Rat.add Rat.mul Rat.sub Rat.inv in
/-- C2 witness: a constant 5 kg trace over 5 s yields a `plateau-v6` window
`[0, 5]` inside `[0, 5]`. -/
theorem plateau_window_inside_witness :
    detectStablePlateauV6 sqZero wSamples11
      = some ⟨5, 0, 1, "plateau-v6", 0, 5, 5, 0, 0, 11⟩ ∧
    dTfirst wSamples11 ≤ 0 ∧ (0 : ℚ) ≤ 5 ∧ (5 : ℚ) ≤ dTlast wSamples11 ∧
      (3 : ℚ) ≤ 5 - 0 := by
  have hdet : detectStablePlateauV6 sqZero wSamples11
      = some ⟨5, 0, 1, "plateau-v6", 0, 5, 5, 0, 0, 11⟩ := by decide
  have h := plateau_window_inside sqZero wSamples11 _ hdet rfl
  exact ⟨hdet, h.1, h.2.1, h.2.2.1, h.2.2.2⟩

/-- If no `win`-sized window over the whole series has a median within the
band, a scanning pass finds nothing (for either `rangeAll` value). -/
theorem considerPass_none (sq : ℚ → ℚ) (consensus band : ℚ) (tK kK : List ℚ)
    (win : Nat) (dur tailStart : ℚ) (rangeAll : Bool)
    (h : ∀ i, i + win ≤ kK.length →
      band < |medianQ ((kK.drop i).take win) - consensus|) :
    considerPass sq consensus band tK kK win dur tailStart rangeAll = none := by
  refine foldl_none _ _ fun i hi => ?_
  have hiw : i + win ≤ kK.length := by
    have := List.mem_range.mp hi
    omega
  have hband := h i hiw
  by_cases hskip : ¬rangeAll ∧ tK.getD i 0 < tailStart
  · rw [if_pos hskip]
  · rw [if_neg hskip]
    rw [if_neg (not_le.mpr hband)]

/-- C4: when no sliding window of the computed size over the filtered series
has a median within `band_kg` of the consensus scalar, the refiner returns
`result = null` together with the consensus, leaving the raw detection
authoritative. -/
theorem consensus_conservative (sq : ℚ → ℚ) (currentSamples : List Sample)
    (firstPass : Plateau) (recent : List ℚ) (bandKg : ℚ)
    (hne : currentSamples ≠ [])
    (h : ∀ i, i + dRollWin currentSamples ≤ (dkK currentSamples).length →
      bandKg < |medianQ (((dkK currentSamples).drop i).take (dRollWin currentSamples))
        - consensusOf firstPass recent|) :
    consensusRefineV2 sq currentSamples firstPass recent bandKg
      = some ⟨consensusOf firstPass recent, none⟩ := by
  unfold consensusRefineV2
  rw [if_neg hne]
  by_cases hk : (dKeepIdx currentSamples).length < 10
  · rw [if_pos hk]
  · rw [if_neg hk]
    dsimp only
    rw [considerPass_none sq _ bandKg _ _ _ _ _ false h,
      considerPass_none sq _ bandKg _ _ _ _ _ true h]

set_option maxRecDepth 100000 in
unseal Rat.add Rat.mul Rat.sub Rat.inv in
/-- C4 witness: a constant 5 kg trace against a consensus of 10 (band 1) — no
window qualifies, the refiner returns the consensus with `result = null`. -/
theorem consensus_conservative_witness :
    wSamples12 ≠ ([] : List Sample) ∧
    consensusRefineV2 sqZero wSamples12 wFirstPass [10, 10, 10, 10, 10] 1
      = some ⟨10, none⟩ := by
  have hdis : ∀ i, i + dRollWin wSamples12 ≤ (dkK wSamples12).length →
      (1 : ℚ) < |medianQ (((dkK wSamples12).drop i).take (dRollWin wSamples12))
        - consensusOf wFirstPass [10, 10, 10, 10, 10]| := by
    have hlen : (dkK wSamples12).length = 12 := by decide
    have hwin : dRollWin wSamples12 = 5 := by decide
    intro i hi
    rw [hlen, hwin] at hi
    have hb : i ≤ 7 := by omega
    rw [hwin]
    interval_cases i <;> decide
  have h := consensus_conservative sqZero wSamples12 wFirstPass [10, 10, 10, 10, 10] 1
    (by decide) hdis
  refine ⟨by decide, ?_⟩
  rw [h]
  decide

/-- C1: an authorized ingest request that passes validation and resolves a
device writes the event row (with server-derived `sample_count` and `peak_kg`)
and enqueues a `pending` job; a 200 response implies both were persisted. -/
theorem ingest_writes_event_and_job (env : IngestEnv) (req : IngestReq) (db : DB)
    (upsertOk insertOk : Bool) (now : Nat) (b : IngestBody) (ss : List SampleField)
    (parsed : List Sample) (sec : String)
    (hcfg : env.sbConfigured = true)
    (hsec : env.functionSecret = some sec) (hhdr : req.headerSecret = some sec)
    (hbody : req.body = some b) (hsid : b.scale_id ≠ "")
    (hss : b.samples = some ss) (hne : ss ≠ [])
    (hparse : parseSamples ss = .ok parsed)
    (hresolve : (∃ row, db.scales.find? (fun r => r.device_id = b.scale_id) = some row) ∨
      (db.scales.find? (fun r => r.device_id = b.scale_id) = none ∧
        env.defaultHouseholdId ≠ none ∧ upsertOk = true)) :
    (insertOk = true →
      (ingest env req db upsertOk insertOk now).1.status = 200 ∧
      ∃ sid, (ingest env req db upsertOk insertOk now).2.events
          = db.events ++ [⟨db.events.length, sid, b.t0_epoch_ms.map jtrunc, parsed,
              parsed.length, peakKg parsed⟩] ∧
        (ingest env req db upsertOk insertOk now).2.jobs
          = db.jobs ++ [⟨db.jobs.length, db.events.length, .pending, now, none⟩]) ∧
    ((ingest env req db upsertOk insertOk now).1.status = 200 →
      ∃ sid, (ingest env req db upsertOk insertOk now).2.events
          = db.events ++ [⟨db.events.length, sid, b.t0_epoch_ms.map jtrunc, parsed,
              parsed.length, peakKg parsed⟩] ∧
        (ingest env req db upsertOk insertOk now).2.jobs
          = db.jobs ++ [⟨db.jobs.length, db.events.length, .pending, now, none⟩]) := by
  unfold ingest
  rw [hcfg]
  rw [if_neg (by simp)]
  rw [if_neg (by simp [hsec, hhdr])]
  rw [hbody]
  simp only
  rw [if_neg hsid, hss]
  cases ss with
  | nil => exact absurd rfl hne
  | cons s0 rest =>
  simp only
  rw [hparse]
  simp only
  rcases hresolve with ⟨row, hrow⟩ | ⟨hrow, hdef, hup⟩
  · rw [hrow]
    simp only
    cases insertOk with
    | false =>
      rw [if_neg (by simp)]
      constructor
      · intro h
        cases h
      · intro h
        simp at h
    | true =>
      rw [if_pos rfl]
      refine ⟨fun _ => ⟨rfl, row.id, ?_, ?_⟩, fun _ => ⟨row.id, ?_, ?_⟩⟩ <;>
        simp [insertEventWithJob]
  · rw [hrow]
    obtain ⟨hh, hd⟩ := Option.ne_none_iff_exists'.mp hdef
    rw [hd]
    simp only
    rw [hup, if_pos rfl]
    cases insertOk with
    | false =>
      rw [if_neg (by simp)]
      constructor
      · intro h
        cases h
      · intro h
        simp at h
    | true =>
      rw [if_pos rfl]
      refine ⟨fun _ => ⟨rfl, db.scales.length, ?_, ?_⟩,
        fun _ => ⟨db.scales.length, ?_, ?_⟩⟩ <;>
        simp [insertEventWithJob]

/-- C1 witness: a concrete authorized, valid, resolvable request gets a 200
and persists the event and the pending job. -/
theorem ingest_writes_event_and_job_witness :
    (ingest wEnv wReqOk wDb true true 3).1.status = 200 ∧
    ∃ sid, (ingest wEnv wReqOk wDb true true 3).2.events
        = [⟨0, sid, some 0, [⟨0, 5⟩], 1, some 5⟩] ∧
      (ingest wEnv wReqOk wDb true true 3).2.jobs = [⟨0, 0, .pending, 3, none⟩] := by
  have h := (ingest_writes_event_and_job wEnv wReqOk wDb true true 3
    ⟨"dev1", some 0, some [⟨some 0, some 5⟩]⟩ [⟨some 0, some 5⟩] [⟨0, 5⟩] "sec"
    rfl rfl rfl rfl (by decide) rfl (by decide) rfl
    (Or.inl ⟨⟨7, "dev1", "hh", "dev1"⟩, by decide⟩)).1 rfl
  obtain ⟨h200, sid, hev, hjob⟩ := h
  exact ⟨h200, sid, by simpa [wDb] using hev, by simpa [wDb] using hjob⟩

/-- C5 counterexample: an authorized, well-formed ingest request whose
`samples` array is empty is **rejected** with 400 `Missing or empty 'samples'`
and writes nothing — the endpoint does not accept zero-sample events. -/
theorem ingest_rejects_empty_samples :
    (ingest wEnv wReqEmpty wDb true true 0).1.status = 400 ∧
    (ingest wEnv wReqEmpty wDb true true 0).1.error = some "Missing or empty 'samples'" ∧
    (ingest wEnv wReqEmpty wDb true true 0).2 = wDb := by
  decide

/-- C5 (amended): the ingest endpoint rejects an empty `samples` array with
400 and leaves the store unchanged; and when the worker processes an event
whose stored samples array is empty, it marks the job `done` with
`error = "no samples"` and writes no Result row. -/
theorem empty_samples_ingest_and_worker (env : IngestEnv) (req : IngestReq) (db : DB)
    (upsertOk insertOk : Bool) (now : Nat) (b : IngestBody) (sec : String)
    (hcfg : env.sbConfigured = true)
    (hsec : env.functionSecret = some sec) (hhdr : req.headerSecret = some sec)
    (hbody : req.body = some b) (hsid : b.scale_id ≠ "")
    (hss : b.samples = some []) :
    ((ingest env req db upsertOk insertOk now).1.status = 400 ∧
     (ingest env req db upsertOk insertOk now).2 = db) ∧
    (∀ (sq : ℚ → ℚ) (db2 : DB) (job : JobRow) (now2 : Nat) (ev : EventRow),
      db2.events.find? (fun e => e.id = job.event_id) = some ev →
      ev.samples = [] →
      (processJob sq db2 job now2).results = db2.results ∧
      (processJob sq db2 job now2).events = db2.events ∧
      ∀ j ∈ (processJob sq db2 job now2).jobs, j.id = job.id →
        j.status = .done ∧ j.error = some "no samples") := by
  constructor
  · unfold ingest
    rw [hcfg]
    rw [if_neg (by simp)]
    rw [if_neg (by simp [hsec, hhdr])]
    rw [hbody]
    simp only
    rw [if_neg hsid, hss]
    exact ⟨rfl, rfl⟩
  · intro sq db2 job now2 ev hfind hsamp
    unfold processJob
    rw [hfind]
    simp only
    rw [if_pos hsamp]
    refine ⟨rfl, rfl, ?_⟩
    intro j hj hid
    simp only [setJobStatus, List.mem_map] at hj
    obtain ⟨j0, _, rfl⟩ := hj
    by_cases h0 : j0.id = job.id
    · rw [if_pos h0]
      exact ⟨rfl, rfl⟩
    · rw [if_neg h0] at hid ⊢
      exact absurd hid h0

/-- C5 amended witness: concrete empty-samples request and a concrete job on
an empty-samples event. -/
theorem empty_samples_ingest_and_worker_witness :
    ((ingest wEnv wReqEmpty wDb true true 0).1.status = 400 ∧
     (ingest wEnv wReqEmpty wDb true true 0).2 = wDb) ∧
    ((processJob sqZero wDbEmptyEvent ⟨1, 10, .processing, 0, none⟩ 5).results
        = wDbEmptyEvent.results ∧
     ∀ j ∈ (processJob sqZero wDbEmptyEvent ⟨1, 10, .processing, 0, none⟩ 5).jobs,
       j.id = 1 → j.status = .done ∧ j.error = some "no samples") := by
  have h := empty_samples_ingest_and_worker wEnv wReqEmpty wDb true true 0
    ⟨"dev1", some 0, some []⟩ "sec" rfl rfl rfl rfl (by decide) rfl
  have hw := h.2 sqZero wDbEmptyEvent ⟨1, 10, .processing, 0, none⟩ 5
    ⟨10, 7, none, [], 0, none⟩ (by decide) rfl
  exact ⟨h.1, hw.1, hw.2.2⟩

/-- C6: the worker's claim phase is a read-then-write, not a single
conditional update: with one pending job, two workers whose `select` phases
both run before either `update` both obtain job 1 (a double claim), whereas a
`select` after an update sees nothing — so the claim is **not** atomic. -/
theorem worker_claim_not_atomic :
    selectPending wDbJob 25 = [1] ∧
    selectPending wDbJob 25 = [1] ∧
    selectPending (markProcessing wDbJob (selectPending wDbJob 25)) 25 = [] := by
  decide

/-- C7: in IDLE (not paused), the transition to ACTIVE at a poll tick happens
exactly when the arm gate is set, the EMA rise is at least `RISE_MIN_KG`, and
the (deadbanded) EMA magnitude reaches `TRIGGER_KG`; on the transition the
buffer is cleared, `session_t0` is recorded, the release timer is reset and
the arm gate is consumed; the arm gate can only be set by an earlier
(unconsumed) grant or by `|EMA| ≤ ARM_BAND_KG` having held for
`ARM_STABLE_MS`; and no ACTIVE step ever grants the arm gate, so after a
termination the gate stays consumed until IDLE re-earns it. -/
theorem idle_to_active_iff (st : Fw.FwState) (now : Nat) (kg : ℚ) (u : Bool)
    (hidle : st.state = .IDLE)
    (hrun : ¬(st.calInProgress = true ∨ now < st.pauseUntil)) :
    ((Fw.loopTick st now (some kg) u).state = .ACTIVE ↔
      (Fw.armOkNext st now kg = true ∧ Fw.RISE_MIN_KG ≤ Fw.riseAt st kg ∧
        Fw.TRIGGER_KG ≤ |Fw.emaDeadbanded st kg|)) ∧
    ((Fw.loopTick st now (some kg) u).state = .ACTIVE →
      (Fw.loopTick st now (some kg) u).buf = [] ∧
      (Fw.loopTick st now (some kg) u).session_t0 = now ∧
      (Fw.loopTick st now (some kg) u).below_start_ms = 0 ∧
      (Fw.loopTick st now (some kg) u).armOk = false) ∧
    (Fw.armOkNext st now kg = true →
      st.armOk = true ∨
      (|Fw.emaNext st kg| ≤ Fw.ARM_BAND_KG ∧
        Fw.ARM_STABLE_MS ≤ now - (if st.armBelowStartMs = 0 then now else st.armBelowStartMs))) ∧
    (∀ (st3 : Fw.FwState) (now3 : Nat) (kg3 : ℚ) (u3 : Bool),
      (Fw.activeStep st3 now3 kg3 u3).armOk = st3.armOk) := by
  have htick : Fw.loopTick st now (some kg) u = Fw.idleTick st now kg := by
    unfold Fw.loopTick
    rw [if_neg hrun, hidle]
    rfl
  rw [htick]
  refine ⟨?_, ?_, ?_, fun _ _ _ _ => rfl⟩
  · unfold Fw.idleTick
    by_cases hc : Fw.armOkNext st now kg = true ∧ Fw.RISE_MIN_KG ≤ Fw.riseAt st kg ∧
        Fw.TRIGGER_KG ≤ |Fw.emaDeadbanded st kg|
    · rw [if_pos hc]
      simpa using hc
    · rw [if_neg hc]
      simp only [hidle]
      constructor
      · intro h
        cases h
      · intro h
        exact absurd h hc
  · unfold Fw.idleTick
    by_cases hc : Fw.armOkNext st now kg = true ∧ Fw.RISE_MIN_KG ≤ Fw.riseAt st kg ∧
        Fw.TRIGGER_KG ≤ |Fw.emaDeadbanded st kg|
    · rw [if_pos hc]
      exact fun _ => ⟨rfl, rfl, rfl, rfl⟩
    · rw [if_neg hc]
      simp only [hidle]
      intro h
      cases h
  · unfold Fw.armOkNext
    by_cases hband : |Fw.emaNext st kg| ≤ Fw.ARM_BAND_KG
    · rw [if_pos hband]
      by_cases ht : Fw.ARM_STABLE_MS ≤
          now - (if st.armBelowStartMs = 0 then now else st.armBelowStartMs)
      · rw [if_pos ht]
        exact fun _ => Or.inr ⟨hband, ht⟩
      · rw [if_neg ht]
        exact fun h => Or.inl h
    · rw [if_neg hband]
      exact fun h => Or.inl h

unseal Rat.add Rat.mul Rat.sub Rat.inv in
/-- C7 witness: an armed IDLE state with the EMA rising through the trigger
transitions to ACTIVE, clearing the buffer, recording `session_t0`, resetting
the release timer and consuming the arm gate. -/
theorem idle_to_active_iff_witness :
    (Fw.loopTick wIdleState 100 (some 10) true).state = .ACTIVE ∧
    (Fw.loopTick wIdleState 100 (some 10) true).buf = [] ∧
    (Fw.loopTick wIdleState 100 (some 10) true).session_t0 = 100 ∧
    (Fw.loopTick wIdleState 100 (some 10) true).below_start_ms = 0 ∧
    (Fw.loopTick wIdleState 100 (some 10) true).armOk = false := by
  have h := idle_to_active_iff wIdleState 100 10 true rfl (by decide)
  have hact : (Fw.loopTick wIdleState 100 (some 10) true).state = .ACTIVE :=
    h.1.mpr ⟨by decide, by decide, by decide⟩
  obtain ⟨h1, h2, h3, h4⟩ := h.2.1 hact
  exact ⟨hact, h1, h2, h3, h4⟩

unseal Rat.add Rat.mul Rat.sub Rat.inv in
/-- C9 counterexample: a hysteresis termination re-enters IDLE with the
session's samples still in the buffer — the buffer is *not* cleared on IDLE
re-entry. -/
theorem buffer_retained_on_idle_reentry :
    (Fw.loopTick wActiveState 2600 (some 0) true).state = .IDLE ∧
    (Fw.loopTick wActiveState 2600 (some 0) true).buf ≠ [] := by
  decide

/-- C9 (amended): the ACTIVE termination paths leave the buffer exactly as the
session filled it (independently of the upload outcome); the buffer is cleared
only at the next IDLE→ACTIVE transition. -/
theorem buffer_cleared_on_active_entry (st : Fw.FwState) (now : Nat) (kg : ℚ)
    (u u' : Bool) :
    Fw.activeStep st now kg u = Fw.activeStep st now kg u' ∧
    ((Fw.activeStep st now kg u).state = .IDLE →
      (Fw.activeStep st now kg u).buf = Fw.activePushBuf st now kg) ∧
    (∀ (st2 : Fw.FwState) (now2 : Nat) (kg2 : ℚ), st2.state = .IDLE →
      (Fw.idleTick st2 now2 kg2).state = .ACTIVE →
      (Fw.idleTick st2 now2 kg2).buf = []) := by
  refine ⟨rfl, fun _ => rfl, ?_⟩
  intro st2 now2 kg2 hidle hact
  unfold Fw.idleTick at hact ⊢
  by_cases hc : Fw.armOkNext st2 now2 kg2 = true ∧ Fw.RISE_MIN_KG ≤ Fw.riseAt st2 kg2 ∧
      Fw.TRIGGER_KG ≤ |Fw.emaDeadbanded st2 kg2|
  · rw [if_pos hc]
  · rw [if_neg hc] at hact
    simp only [hidle] at hact
    cases hact

unseal Rat.add Rat.mul Rat.sub Rat.inv in
/-- C9 amended witness: at the concrete terminating step the state is IDLE and
the buffer equals the pushed session buffer (non-empty), for either upload
outcome; the concrete IDLE→ACTIVE transition clears the buffer. -/
theorem buffer_cleared_on_active_entry_witness :
    Fw.activeStep wActiveState 2600 0 true = Fw.activeStep wActiveState 2600 0 false ∧
    (Fw.activeStep wActiveState 2600 0 true).state = .IDLE ∧
    (Fw.activeStep wActiveState 2600 0 true).buf = Fw.activePushBuf wActiveState 2600 0 ∧
    (Fw.idleTick wIdleState 100 10).state = .ACTIVE ∧
    (Fw.idleTick wIdleState 100 10).buf = [] := by
  have h := buffer_cleared_on_active_entry wActiveState 2600 0 true false
  have hidle : (Fw.activeStep wActiveState 2600 0 true).state = .IDLE := by decide
  have hact : (Fw.idleTick wIdleState 100 10).state = .ACTIVE := by decide
  exact ⟨h.1, hidle, h.2.1 hidle, hact, h.2.2 wIdleState 100 10 rfl hact⟩

theorem prefixReads_succ (reads : Nat → ℤ) (n : Nat) :
    Fw.prefixReads reads (n + 1) = Fw.prefixReads reads n ++ [reads n] := by
  simp [Fw.prefixReads, List.range_succ]

theorem prefixReads_length (reads : Nat → ℤ) (n : Nat) :
    (Fw.prefixReads reads n).length = n := by
  simp [Fw.prefixReads]

/-- The loop body's early-return condition after collecting `prefixReads n` is
exactly `stableStop n`. -/
theorem stableStop_iff (sq : ℚ → ℚ) (reads : Nat → ℤ) (elapsed : Nat → Nat)
    (minS : Nat) (maxSd : ℚ) (minDur : Nat) (n : Nat) :
    Fw.stableStop sq reads elapsed minS maxSd minDur n ↔
      (minS ≤ (Fw.prefixReads reads n).length ∧
       minDur ≤ elapsed (Fw.prefixReads reads n).length ∧
       Fw.computeStdDev sq (Fw.prefixReads reads n)
         (Fw.meanZ (Fw.prefixReads reads n)) ≤ maxSd) := by
  rw [prefixReads_length]
  exact Iff.rfl

/-- If the stop test fails at every sample count the loop can reach, the loop
runs to its cap and returns the rounded mean of everything collected. -/
theorem readStableRawGo_no_stop (sq : ℚ → ℚ) (reads : Nat → ℤ) (elapsed : Nat → Nat)
    (minS : Nat) (maxSd : ℚ) (minDur : Nat) :
    ∀ (fuel k : Nat),
      (∀ m, k < m → m ≤ k + fuel → ¬ Fw.stableStop sq reads elapsed minS maxSd minDur m) →
      Fw.readStableRawGo sq reads elapsed minS maxSd minDur fuel (Fw.prefixReads reads k)
        = lroundQ (Fw.meanZ (Fw.prefixReads reads (k + fuel))) := by
  intro fuel
  induction fuel with
  | zero => intro k _; rfl
  | succ fuel ih =>
    intro k h
    rw [Fw.readStableRawGo]
    simp only [prefixReads_length]
    rw [← prefixReads_succ]
    rw [if_neg]
    · have := ih (k + 1) fun m h1 h2 => h m (by omega) (by omega)
      rw [this]
      congr 1
      rw [Nat.add_assoc, Nat.add_comm 1 fuel]
    · have hns := h (k + 1) (by omega) (by omega)
      rw [stableStop_iff] at hns
      exact hns

/-- If the stop test first passes at `n₀` (within the cap), the loop returns
the rounded mean of the first `n₀` samples. -/
theorem readStableRawGo_stop (sq : ℚ → ℚ) (reads : Nat → ℤ) (elapsed : Nat → Nat)
    (minS : Nat) (maxSd : ℚ) (minDur : Nat) :
    ∀ (fuel k n₀ : Nat), k < n₀ → n₀ ≤ k + fuel →
      Fw.stableStop sq reads elapsed minS maxSd minDur n₀ →
      (∀ m, k < m → m < n₀ → ¬ Fw.stableStop sq reads elapsed minS maxSd minDur m) →
      Fw.readStableRawGo sq reads elapsed minS maxSd minDur fuel (Fw.prefixReads reads k)
        = lroundQ (Fw.meanZ (Fw.prefixReads reads n₀)) := by
  intro fuel
  induction fuel with
  | zero => intro k n₀ h1 h2 _ _; omega
  | succ fuel ih =>
    intro k n₀ h1 h2 hstop hmin
    rw [Fw.readStableRawGo]
    simp only [prefixReads_length]
    rw [← prefixReads_succ]
    by_cases heq : k + 1 = n₀
    · rw [if_pos]
      · rw [heq]
      · have := hstop
        rw [stableStop_iff] at this
        rw [heq]
        exact this
    · rw [if_neg]
      · exact ih (k + 1) n₀ (by omega) (by omega) hstop
          fun m hm1 hm2 => hmin m (by omega) hm2
      · have hns := hmin (k + 1) (by omega) (by omega)
        rw [stableStop_iff] at hns
        exact hns

/-- C8: `readStableRaw` always returns a value: the rounded mean of the first
`n₀` samples at the first `n₀` (within the cap `min maxSamples 128`) where the
count, duration and sample-stddev conditions all hold — and, if no such count
exists, the rounded mean of all `min maxSamples 128` collected samples. -/
theorem readStableRaw_spec (sq : ℚ → ℚ) (reads : Nat → ℤ) (elapsed : Nat → Nat)
    (minSamples maxSamples : Nat) (maxStdDevCounts : ℚ) (minDurationMs : Nat) :
    (∀ n₀, 0 < n₀ → n₀ ≤ min maxSamples 128 →
      Fw.stableStop sq reads elapsed minSamples maxStdDevCounts minDurationMs n₀ →
      (∀ m, 0 < m → m < n₀ →
        ¬ Fw.stableStop sq reads elapsed minSamples maxStdDevCounts minDurationMs m) →
      Fw.readStableRaw sq reads elapsed minSamples maxSamples maxStdDevCounts minDurationMs
        = lroundQ (Fw.meanZ (Fw.prefixReads reads n₀))) ∧
    ((∀ m, 0 < m → m ≤ min maxSamples 128 →
        ¬ Fw.stableStop sq reads elapsed minSamples maxStdDevCounts minDurationMs m) →
      Fw.readStableRaw sq reads elapsed minSamples maxSamples maxStdDevCounts minDurationMs
        = lroundQ (Fw.meanZ (Fw.prefixReads reads (min maxSamples 128)))) := by
  constructor
  · intro n₀ h0 hcap hstop hmin
    have h := readStableRawGo_stop sq reads elapsed minSamples maxStdDevCounts minDurationMs
      (min maxSamples 128) 0 n₀ h0 (by omega) hstop (fun m hm1 hm2 => hmin m hm1 hm2)
    simpa [Fw.readStableRaw, Fw.prefixReads] using h
  · intro hall
    have h := readStableRawGo_no_stop sq reads elapsed minSamples maxStdDevCounts minDurationMs
      (min maxSamples 128) 0 (fun m hm1 hm2 => hall m hm1 (by omega))
    simpa [Fw.readStableRaw, Fw.prefixReads] using h

unseal Rat.add Rat.mul Rat.sub Rat.inv in
/-- C8 witness: a constant stream of 7 counts at 100 ms intervals with
`minSamples = 3`, `minDuration = 300 ms`: the loop stops at the third sample
and returns 7. -/
theorem readStableRaw_spec_witness :
    Fw.readStableRaw sqZero (fun _ => 7) (fun n => 100 * n) 3 10 1 300 = 7 := by
  have h := (readStableRaw_spec sqZero (fun _ => 7) (fun n => 100 * n) 3 10 1 300).1 3
    (by decide) (by decide) (by decide)
    (by intro m h1 h2; interval_cases m <;> decide)
  rw [h]
  decide

end Autoscale
